import Mathlib

/-!
Verification of the cart / inventory-reservation core of the Artisan Coffee
e-commerce repository.

The embedding translates, field for field, the cart store (`useCartStore`:
`addItem`, `removeItem`, `updateQuantity`, `clearCart`, `getTotalPrice`,
`reserveInventory`, `releaseReservation`, `refreshReservations`), the checkout
flow (`handleCheckout` in the cart drawer), the inventory-management hook
(`reserveStock`, `loadInventoryStats`) and the availability computations of the
data service (`getProductsWithInventory`, `checkProductAvailability`).

Remote-table state (`getItems` / `updateItem` on the inventory table, keyed by
`product_id`) is modelled as a function from product ids to optional inventory
records; the asynchronous round-trips of the source are sequentialised exactly
in the order the source awaits them.  Stock counters are integers, because the
source performs unguarded subtraction on `current_stock` and can drive it
negative.  Token generation (`res_${Date.now()}_${random}`) is modelled by a
deterministic counter producing pairwise distinct token strings.
-/

namespace ArtisanCoffee

/-- One row of the remote inventory table (`evn000r9yk8w`): the fields the
cart / checkout logic reads and writes. -/
structure InventoryRecord where
  current_stock : Int
  reserved_stock : Int
  total_sold : Int
deriving DecidableEq, Repr

/-- A cart line item (`CartItem` in the cart store): the product reference is
flattened to the fields the logic uses — the id, the unit price in cents and
the `available_stock` snapshot carried inside the stored
`ProductWithInventory`. -/
structure CartItem where
  productId : String
  price : Int
  availableSnapshot : Int
  quantity : Int
  reservationId : Option String
  addedAt : Int
deriving DecidableEq, Repr

/-- Itemised order line recorded at checkout (`order_items`). -/
structure OrderLine where
  product_id : String
  price : Int
  quantity : Int
deriving DecidableEq, Repr

/-- An order row written to the orders table at checkout. -/
structure Order where
  subtotal : Int
  shipping_cost : Int
  tax_amount : Int
  total_amount : Int
  lines : List OrderLine
deriving DecidableEq, Repr

/-- The combined client + remote state the cart logic manipulates: the cart
lines, the remote inventory table, the pending expiry timers (by token), the
token-generation counter, and the orders table. -/
structure CartState where
  items : List CartItem
  inventory : String → Option InventoryRecord
  timeouts : List String
  nextTokenId : Nat
  orders : List Order

/-- Point update of the remote inventory table (the `table.updateItem` write,
keyed by `product_id`). -/
def setInv (inv : String → Option InventoryRecord) (productId : String)
    (rec : InventoryRecord) : String → Option InventoryRecord :=
  fun p => if p = productId then some rec else inv p

/-- Reservation-token generation (`res_${Date.now()}_${random}` in the source),
modelled as a counter; distinct counter values give distinct tokens. -/
def mkToken (n : Nat) : String :=
  "res_" ++ toString n

/-- 15 minutes in milliseconds (`RESERVATION_TIMEOUT`). -/
def RESERVATION_TIMEOUT : Int := 15 * 60 * 1000

/-- `reserveInventory(productId, quantity)` of the cart store: reads the
inventory record; returns `null` when the record is missing; otherwise writes
`reserved_stock + quantity` back and returns the generated token.  Note that
the source performs no availability check here. -/
def reserveInventory (s : CartState) (productId : String) (quantity : Int) :
    Option String × CartState :=
  match s.inventory productId with
  | none => (none, s)
  | some rec =>
      (some (mkToken s.nextTokenId),
        { s with
          inventory := setInv s.inventory productId
            { rec with reserved_stock := rec.reserved_stock + quantity },
          nextTokenId := s.nextTokenId + 1 })

/-- `releaseReservation(reservationId)` of the cart store: looks up the cart
line owning the token (no-op when none holds it); when the inventory record
exists, writes back `max 0 (reserved_stock - quantity)`; clears the pending
timer; removes the line from the cart. -/
def releaseReservation (s : CartState) (reservationId : String) : CartState :=
  match s.items.find? (fun it => decide (it.reservationId = some reservationId)) with
  | none => s
  | some item =>
      let inv' :=
        match s.inventory item.productId with
        | none => s.inventory
        | some rec =>
            setInv s.inventory item.productId
              { rec with reserved_stock := max 0 (rec.reserved_stock - item.quantity) }
      { s with
        inventory := inv',
        timeouts := s.timeouts.filter (fun t => decide (¬ t = reservationId)),
        items := s.items.filter (fun it => decide (¬ it.reservationId = some reservationId)) }

/-- `addItem(product, quantity)` of the cart store: merges into an existing
line (summing the quantity) or appends a new line; the availability check is
against the `available_stock` snapshot of the product argument; on success a
reservation for the delta is taken and an expiry timer registered. -/
def addItem (s : CartState) (productId : String) (price availSnapshot quantity now : Int) :
    Bool × CartState :=
  let existing := s.items.find? (fun it => decide (it.productId = productId))
  let currentQuantity := (existing.map (fun it => it.quantity)).getD 0
  let totalQuantity := currentQuantity + quantity
  if totalQuantity > availSnapshot then (false, s)
  else
    match reserveInventory s productId quantity with
    | (none, s') => (false, s')
    | (some tok, s') =>
        let newItems :=
          match existing with
          | some _ =>
              s'.items.map (fun it =>
                if it.productId = productId then
                  { it with quantity := totalQuantity, reservationId := some tok }
                else it)
          | none =>
              s'.items ++ [{ productId := productId, price := price,
                             availableSnapshot := availSnapshot, quantity := quantity,
                             reservationId := some tok, addedAt := now }]
        (true, { s' with items := newItems, timeouts := s'.timeouts ++ [tok] })

/-- `removeItem(productId)` of the cart store: releases the line's reservation
when it holds one, then filters the line out. -/
def removeItem (s : CartState) (productId : String) : CartState :=
  let s' :=
    match s.items.find? (fun it => decide (it.productId = productId)) with
    | some item =>
        match item.reservationId with
        | some rid => releaseReservation s rid
        | none => s
    | none => s
  { s' with items := s'.items.filter (fun it => decide (¬ it.productId = productId)) }

/-- `updateQuantity(productId, quantity)` of the cart store: `quantity ≤ 0` is
removal; missing line fails; the availability check adds the line's own held
quantity back to its `available_stock` snapshot; then the old reservation is
released (which, in the source, also removes the line) and a new one taken,
after which the new quantity is mapped over the remaining lines. -/
def updateQuantity (s : CartState) (productId : String) (quantity : Int) :
    Bool × CartState :=
  if quantity ≤ 0 then (true, removeItem s productId)
  else
    match s.items.find? (fun it => decide (it.productId = productId)) with
    | none => (false, s)
    | some item =>
        let availableStock := item.availableSnapshot + item.quantity
        if quantity > availableStock then (false, s)
        else
          let s1 :=
            match item.reservationId with
            | some rid => releaseReservation s rid
            | none => s
          match reserveInventory s1 productId quantity with
          | (none, s2) => (false, s2)
          | (some tok, s2) =>
              (true, { s2 with
                items := s2.items.map (fun it =>
                  if it.productId = productId then
                    { it with quantity := quantity, reservationId := some tok }
                  else it) })

/-- `clearCart()` of the cart store: releases every line's reservation in
order, then empties the cart. -/
def clearCart (s : CartState) : CartState :=
  let s' := s.items.foldl
    (fun acc it =>
      match it.reservationId with
      | some rid => releaseReservation acc rid
      | none => acc)
    s
  { s' with items := [] }

/-- `getTotalPrice()` of the cart store: the fold summing unit price times
quantity (integer cents). -/
def getTotalPrice (s : CartState) : Int :=
  s.items.foldl (fun total it => total + it.price * it.quantity) 0

/-- `getTotalItems()` of the cart store. -/
def getTotalItems (s : CartState) : Int :=
  s.items.foldl (fun total it => total + it.quantity) 0

/-- One iteration of the checkout inventory loop: when the line's inventory
record exists, write back `current_stock - quantity` (no floor),
`max 0 (reserved_stock - quantity)` and `total_sold + quantity`. -/
def commitLine (s : CartState) (it : CartItem) : CartState :=
  match s.inventory it.productId with
  | none => s
  | some rec =>
      { s with
        inventory := setInv s.inventory it.productId
          { rec with
            current_stock := rec.current_stock - it.quantity,
            reserved_stock := max 0 (rec.reserved_stock - it.quantity),
            total_sold := rec.total_sold + it.quantity } }

/-- The tax computation of checkout, `Math.round(subtotal * 0.08)`, modelled
as exact half-up rounding of 8 percent. -/
def taxOf (subtotal : Int) : Int :=
  (subtotal * 8 + 50) / 100

/-- The shipping computation of checkout: a flat 500-cent fee, waived when the
subtotal exceeds 5000 cents. -/
def shippingOf (subtotal : Int) : Int :=
  if subtotal > 5000 then 0 else 500

/-- `handleCheckout` of the cart drawer (the authenticated, non-empty-cart
path): record the order (subtotal, shipping, tax, total, itemised lines), run
the inventory commit loop over the cart lines, then call `clearCart` — which,
in the source, releases every reservation again — and report success. -/
def handleCheckout (s : CartState) : Option Order × CartState :=
  if s.items.isEmpty then (none, s)
  else
    let subtotal := getTotalPrice s
    let order : Order :=
      { subtotal := subtotal,
        shipping_cost := shippingOf subtotal,
        tax_amount := taxOf subtotal,
        total_amount := subtotal + shippingOf subtotal + taxOf subtotal,
        lines := s.items.map (fun it =>
          { product_id := it.productId, price := it.price, quantity := it.quantity }) }
    let s1 := { s with orders := s.orders ++ [order] }
    let s2 := s.items.foldl commitLine s1
    (some order, clearCart s2)

/-- One step of `refreshReservations`: a line holding a token whose age
exceeds the TTL is released; anything else is skipped. -/
def refreshStep (now : Int) (s : CartState) (it : CartItem) : CartState :=
  match it.reservationId with
  | some rid =>
      if now - it.addedAt > RESERVATION_TIMEOUT then releaseReservation s rid else s
  | none => s

/-- `refreshReservations()` of the cart store: iterate the snapshot of the
cart lines, releasing each expired reservation. -/
def refreshReservations (s : CartState) (now : Int) : CartState :=
  s.items.foldl (refreshStep now) s

/-- Whether `refreshReservations` would release this line at time `now`. -/
def isExpired (now : Int) (it : CartItem) : Bool :=
  it.reservationId.isSome && decide (now - it.addedAt > RESERVATION_TIMEOUT)

/-- Failure taxonomy of the inventory-management hook's reservation path. -/
inductive ReserveError where
  | notFound
  | insufficientStock
deriving DecidableEq, Repr

/-- `reserveStock(productId, quantity)` of the inventory-management hook:
fails when the record is missing; computes
`available = max 0 (current_stock - reserved_stock)` and fails with
insufficient stock when `available < quantity`; otherwise writes
`reserved_stock + quantity` back. -/
def reserveStock (inv : String → Option InventoryRecord) (productId : String)
    (quantity : Int) : Except ReserveError (String → Option InventoryRecord) :=
  match inv productId with
  | none => .error .notFound
  | some rec =>
      let available := max 0 (rec.current_stock - rec.reserved_stock)
      if available < quantity then .error .insufficientStock
      else .ok (setInv inv productId
        { rec with reserved_stock := rec.reserved_stock + quantity })

/-- The `available_stock` derived by `getProductsWithInventory` in the data
service: `Math.max(0, current_stock - reserved_stock)`. -/
def productAvailableStock (rec : InventoryRecord) : Int :=
  max 0 (rec.current_stock - rec.reserved_stock)

/-- The per-item `available` computed by `loadInventoryStats` in the
inventory-management hook: `Math.max(0, current_stock - reserved_stock)`. -/
def statsAvailable (rec : InventoryRecord) : Int :=
  max 0 (rec.current_stock - rec.reserved_stock)

/-- `checkProductAvailability(productId, quantity)` of the data service:
`false` when the record is missing, else
`current_stock - reserved_stock >= quantity` (no floor in the source). -/
def checkProductAvailability (inv : String → Option InventoryRecord)
    (productId : String) (quantity : Int) : Bool :=
  match inv productId with
  | none => false
  | some rec => decide (rec.current_stock - rec.reserved_stock ≥ quantity)

/-- A reserve or release request against the shared inventory state, for
quantifying over operation sequences. -/
inductive CartOp where
  | reserve (productId : String) (quantity : Int)
  | release (reservationId : String)

/-- Apply one reserve/release operation through the cart store. -/
def applyOp (s : CartState) : CartOp → CartState
  | .reserve p q => (reserveInventory s p q).2
  | .release rid => releaseReservation s rid

/-- Apply a sequence of reserve/release operations. -/
def applyOps (s : CartState) (ops : List CartOp) : CartState :=
  ops.foldl applyOp s

/-- Reservation tokens identify cart lines uniquely: two lines carrying the
same (present) token are the same line.  This is the token-freshness property
the cart API maintains and is stated decidably for concrete carts. -/
def tokensInjective (l : List CartItem) : Prop :=
  ∀ a ∈ l, ∀ b ∈ l, a.reservationId.isSome = true →
    a.reservationId = b.reservationId → a = b

/-- Every inventory record in the store has a nonnegative `reserved_stock`. -/
def invNonneg (inv : String → Option InventoryRecord) : Prop :=
  ∀ p rec, inv p = some rec → 0 ≤ rec.reserved_stock

/-! ### Sample states used by counterexamples and witnesses -/

/-- Empty cart over a store whose only record (product `p`) has zero
availability: `current_stock = reserved_stock = 5`. -/
def exhaustedState : CartState :=
  ⟨[], fun p => if p = "p" then some ⟨5, 5, 0⟩ else none, [], 0, []⟩

/-- One-line cart (product `A`, quantity 1, price 1000, token `t1`) whose
record holds reservations from this cart and elsewhere:
`current_stock = 10`, `reserved_stock = 2`. -/
def checkoutState : CartState :=
  ⟨[⟨"A", 1000, 10, 1, some "t1", 0⟩],
   fun p => if p = "A" then some ⟨10, 2, 0⟩ else none, ["t1"], 5, []⟩

/-- One-line cart (product `B`, quantity 2, token `t2`) over a record with
`reserved_stock = 5`: three of the held units belong to other carts. -/
def sharedHoldState : CartState :=
  ⟨[⟨"B", 1500, 10, 2, some "t2", 0⟩],
   fun p => if p = "B" then some ⟨10, 5, 0⟩ else none, ["t2"], 5, []⟩

/-- Empty cart over a record with a single physical unit, paired with a stale
product snapshot that still advertises 5 available units. -/
def staleSnapshotState : CartState :=
  ⟨[], fun p => if p = "C" then some ⟨1, 0, 0⟩ else none, [], 0, []⟩

/-- Empty cart over a well-stocked record for product `p`. -/
def freshState : CartState :=
  ⟨[], fun p => if p = "p" then some ⟨10, 0, 0⟩ else none, [], 0, []⟩

/-- One-line cart (product `p`, quantity 4, token `r1`, snapshot 6 available)
over a record `current_stock = 10`, `reserved_stock = 4`. -/
def heldLineState : CartState :=
  ⟨[⟨"p", 1200, 6, 4, some "r1", 0⟩],
   fun p => if p = "p" then some ⟨10, 4, 0⟩ else none, ["r1"], 3, []⟩

/-! ### Helper lemmas -/

/-- Field-wise extensionality for the cart state. -/
theorem cartState_ext {a b : CartState} (hitems : a.items = b.items)
    (hinv : a.inventory = b.inventory) (ht : a.timeouts = b.timeouts)
    (hn : a.nextTokenId = b.nextTokenId) (ho : a.orders = b.orders) : a = b := by
  cases a
  cases b
  simp_all

/-- Reading the point just written. -/
theorem setInv_same (inv : String → Option InventoryRecord) (productId : String)
    (rec : InventoryRecord) : setInv inv productId rec productId = some rec := by
  simp [setInv]

/-- Reading any other point. -/
theorem setInv_other (inv : String → Option InventoryRecord) (productId p : String)
    (rec : InventoryRecord) (h : ¬ p = productId) :
    setInv inv productId rec p = inv p := by
  simp [setInv, h]

/-! ### C1 — availability check on reserve -/

/-- C1 counterexample: the cart store's `reserveInventory` applies no
availability check.  Against a record with `current_stock = 5` and
`reserved_stock = 5` (availability 0), reserving quantity 3 does not fail: it
returns a token and writes `reserved_stock = 8`, contradicting the claim that
such a reserve fails with `InsufficientStock` and leaves `reserved_stock`
unchanged. -/
theorem claim_c1_counterexample :
    (reserveInventory exhaustedState "p" 3).1 = some "res_0" ∧
    (reserveInventory exhaustedState "p" 3).2.inventory "p" =
      some { current_stock := 5, reserved_stock := 8, total_sold := 0 } := by
  constructor <;> decide

/-- C1 (amended): the availability check lives only in the inventory hook's
`reserveStock`, which fails with `InsufficientStock` exactly when the
requested quantity exceeds `max 0 (current_stock - reserved_stock)` read from
the store at the time of the request (producing no write, so `reserved_stock`
is unchanged), and otherwise increments `reserved_stock` by exactly the
quantity; the cart store's `reserveInventory` always succeeds on an existing
record, incrementing `reserved_stock` by exactly the quantity and returning
the freshly generated token. -/
theorem claim_c1_amended (s : CartState) (productId : String) (quantity : Int)
    (rec : InventoryRecord) (hrec : s.inventory productId = some rec) :
    (max 0 (rec.current_stock - rec.reserved_stock) < quantity →
      reserveStock s.inventory productId quantity = .error .insufficientStock) ∧
    (¬ max 0 (rec.current_stock - rec.reserved_stock) < quantity →
      ∃ inv', reserveStock s.inventory productId quantity = .ok inv' ∧
        inv' productId = some { rec with reserved_stock := rec.reserved_stock + quantity } ∧
        ∀ p, p ≠ productId → inv' p = s.inventory p) ∧
    ((reserveInventory s productId quantity).1 = some (mkToken s.nextTokenId) ∧
      (reserveInventory s productId quantity).2.inventory productId =
        some { rec with reserved_stock := rec.reserved_stock + quantity }) := by
  refine ⟨?_, ?_, ?_, ?_⟩
  · intro hlt
    simp only [reserveStock, hrec]
    rw [if_pos hlt]
  · intro hge
    refine ⟨setInv s.inventory productId
      { rec with reserved_stock := rec.reserved_stock + quantity }, ?_, ?_, ?_⟩
    · simp only [reserveStock, hrec]
      rw [if_neg hge]
    · simp [setInv]
    · intro p hp
      simp [setInv, hp]
  · simp only [reserveInventory, hrec]
  · simp only [reserveInventory, hrec, setInv]
    simp

/-- C1 witness: on a record with `current_stock = 5`, `reserved_stock = 5`,
the hook's reserve of 3 units fails with insufficient stock while the cart
store's reserve succeeds and writes `reserved_stock = 8`. -/
theorem claim_c1_witness :
    (reserveStock exhaustedState.inventory "p" 3 = .error .insufficientStock) ∧
    (reserveInventory exhaustedState "p" 3).1 = some (mkToken exhaustedState.nextTokenId) ∧
    (reserveInventory exhaustedState "p" 3).2.inventory "p" =
      some { current_stock := 5, reserved_stock := 8, total_sold := 0 } := by
  refine ⟨?_, ?_⟩
  · exact (claim_c1_amended exhaustedState "p" 3 ⟨5, 5, 0⟩ (by decide)).1 (by decide)
  · exact (claim_c1_amended exhaustedState "p" 3 ⟨5, 5, 0⟩ (by decide)).2.2

/-! ### C2 — checkout totals and inventory conversion -/

/-- C2: checkout of the cart [(`A`, qty 1, price 1000)] against the record
(`current_stock` 10, `reserved_stock` 2) records the order with the correct
subtotal 1000, flat shipping 500 (not waived below the 5000 threshold), 8
percent tax 80, and decrements `current_stock` by the line quantity — but
`reserved_stock` ends at 0 instead of 1: the commit loop decrements it by the
quantity and the cart-clearing release decrements it a second time, so the
claimed decrement-by-exactly-the-quantity fails. -/
theorem claim_c2_checkout_double_decrement :
    (handleCheckout checkoutState).1 =
      some { subtotal := 1000, shipping_cost := 500, tax_amount := 80,
             total_amount := 1580,
             lines := [{ product_id := "A", price := 1000, quantity := 1 }] } ∧
    (handleCheckout checkoutState).2.inventory "A" =
      some { current_stock := 9, reserved_stock := 0, total_sold := 1 } := by
  constructor <;> decide

/-! ### C3 — reservations on successful checkout -/

/-- C3: on successful checkout the source calls `clearCart`, and `clearCart`
calls `releaseReservation` for every line, so `reserved_stock` is decremented
a second time after the commit step.  For the cart [(`B`, qty 2, token `t2`)]
over the record (`current_stock` 10, `reserved_stock` 5), exactly-once
decrement would leave `reserved_stock = 3`; the code leaves 1. -/
theorem claim_c3_release_called_on_checkout :
    (handleCheckout sharedHoldState).2.inventory "B" =
      some { current_stock := 8, reserved_stock := 1, total_sold := 2 } := by
  decide

/-! ### C8 — negative stock writes -/

/-- C8 counterexample: starting from an empty cart over the record
(`current_stock` 1, `reserved_stock` 0) with a stale snapshot advertising 5
available units, `addItem` for 2 units succeeds (it checks only the
snapshot), and checkout then writes `current_stock = -1`: the claimed
defensive detection of would-be negative stock before any write does not
exist for `current_stock`. -/
theorem claim_c8_counterexample :
    (addItem staleSnapshotState "C" 1000 5 2 0).1 = true ∧
    (handleCheckout (addItem staleSnapshotState "C" 1000 5 2 0).2).2.inventory "C" =
      some { current_stock := -1, reserved_stock := 0, total_sold := 2 } := by
  constructor <;> decide

/-! ### C6 — derived availability -/

/-- C6: after any sequence of reserve and release operations, the
`available_stock` derived by `getProductsWithInventory`, the `available`
computed by `loadInventoryStats`, and the verdict of
`checkProductAvailability` (for the positive quantities the data model
allows) all agree with `max 0 (current_stock - reserved_stock)` of the record
read from the store. -/
theorem claim_c6_available_stock (s0 : CartState) (ops : List CartOp)
    (productId : String) (rec : InventoryRecord) (quantity : Int)
    (hrec : (applyOps s0 ops).inventory productId = some rec)
    (hq : 1 ≤ quantity) :
    productAvailableStock rec = max 0 (rec.current_stock - rec.reserved_stock) ∧
    statsAvailable rec = max 0 (rec.current_stock - rec.reserved_stock) ∧
    checkProductAvailability (applyOps s0 ops).inventory productId quantity =
      decide (max 0 (rec.current_stock - rec.reserved_stock) ≥ quantity) := by
  refine ⟨rfl, rfl, ?_⟩
  simp only [checkProductAvailability, hrec]
  rw [decide_eq_decide]
  omega

/-- C6 witness: after the over-reserving `reserve("p", 3)` on the exhausted
record, the store holds (`current_stock` 5, `reserved_stock` 8) and all three
availability computations report the floored value 0 (so one unit is not
available). -/
theorem claim_c6_witness :
    productAvailableStock ⟨5, 8, 0⟩ = max 0 ((5 : Int) - 8) ∧
    statsAvailable ⟨5, 8, 0⟩ = max 0 ((5 : Int) - 8) ∧
    checkProductAvailability
        (applyOps exhaustedState [CartOp.reserve "p" 3]).inventory "p" 1 =
      decide (max 0 ((5 : Int) - 8) ≥ 1) := by
  exact claim_c6_available_stock exhaustedState [CartOp.reserve "p" 3] "p"
    ⟨5, 8, 0⟩ 1 (by decide) (by decide)

/-! ### C10 — release of an unowned token -/

/-- C10: releasing a token that no current cart line holds — in particular a
token already released once, since release removes every line holding it — is
a complete no-op: no inventory write happens and the whole state (cart lines,
remote inventory, timers) is returned unchanged. -/
theorem claim_c10_release_unowned_noop (s : CartState) (reservationId : String)
    (h : ∀ it ∈ s.items, ¬ it.reservationId = some reservationId) :
    releaseReservation s reservationId = s := by
  unfold releaseReservation
  have hfind : s.items.find?
      (fun it => decide (it.reservationId = some reservationId)) = none := by
    rw [List.find?_eq_none]
    intro x hx
    simpa using h x hx
  rw [hfind]

/-- C10 witness: releasing the unknown token `nope` on a populated cart state
returns the state unchanged. -/
theorem claim_c10_witness :
    releaseReservation heldLineState "nope" = heldLineState :=
  claim_c10_release_unowned_noop heldLineState "nope" (by decide)

/-! ### C4 — release is the inverse of reserve -/

/-- C4: reserving quantity units of a product not yet in the cart (through
`addItem`, which creates the line owning the fresh token) and then releasing
the returned token restores the state exactly: the inventory record returns
to its pre-reservation value, the pending expiry timer is cleared, and the
line is removed from the cart — only the token counter has advanced. -/
theorem claim_c4_reserve_release_inverse (s : CartState) (productId : String)
    (price availSnapshot quantity now : Int) (rec : InventoryRecord)
    (hrec : s.inventory productId = some rec)
    (hres : 0 ≤ rec.reserved_stock)
    (hnoline : ∀ it ∈ s.items, ¬ it.productId = productId)
    (hnotok : ∀ it ∈ s.items, ¬ it.reservationId = some (mkToken s.nextTokenId))
    (htime : ∀ t ∈ s.timeouts, ¬ t = mkToken s.nextTokenId)
    (hq : quantity ≤ availSnapshot) :
    (addItem s productId price availSnapshot quantity now).1 = true ∧
    releaseReservation (addItem s productId price availSnapshot quantity now).2
        (mkToken s.nextTokenId) =
      { s with nextTokenId := s.nextTokenId + 1 } := by
  have hfindP : s.items.find? (fun it => decide (it.productId = productId)) = none := by
    rw [List.find?_eq_none]
    intro x hx
    simpa using hnoline x hx
  have haddEq : addItem s productId price availSnapshot quantity now =
      (true,
        { items := s.items ++ [⟨productId, price, availSnapshot, quantity,
            some (mkToken s.nextTokenId), now⟩],
          inventory := setInv s.inventory productId
            { rec with reserved_stock := rec.reserved_stock + quantity },
          timeouts := s.timeouts ++ [mkToken s.nextTokenId],
          nextTokenId := s.nextTokenId + 1,
          orders := s.orders }) := by
    simp only [addItem, hfindP, Option.map_none', Option.getD_none, reserveInventory, hrec]
    rw [if_neg (by omega)]
  refine ⟨by rw [haddEq], ?_⟩
  rw [haddEq]
  have hfindT : (s.items ++ [(⟨productId, price, availSnapshot, quantity,
      some (mkToken s.nextTokenId), now⟩ : CartItem)]).find?
        (fun it => decide (it.reservationId = some (mkToken s.nextTokenId))) =
      some ⟨productId, price, availSnapshot, quantity,
        some (mkToken s.nextTokenId), now⟩ := by
    rw [List.find?_append]
    have h1 : s.items.find?
        (fun it => decide (it.reservationId = some (mkToken s.nextTokenId))) = none := by
      rw [List.find?_eq_none]
      intro x hx
      simpa using hnotok x hx
    rw [h1]
    simp
  unfold releaseReservation
  rw [hfindT]
  simp only [setInv_same]
  refine cartState_ext ?_ ?_ ?_ rfl rfl
  · dsimp only
    rw [List.filter_append]
    have h2 : s.items.filter
        (fun it => decide (¬ it.reservationId = some (mkToken s.nextTokenId))) = s.items :=
      List.filter_eq_self.mpr (fun a ha => by simpa using hnotok a ha)
    rw [h2]
    simp
  · dsimp only
    funext p
    by_cases hp : p = productId
    · subst hp
      rw [setInv_same, hrec]
      have hmax : max 0 (rec.reserved_stock + quantity - quantity) =
          rec.reserved_stock := by omega
      rw [hmax]
    · rw [setInv_other _ _ _ _ hp, setInv_other _ _ _ _ hp]
  · dsimp only
    rw [List.filter_append]
    have h3 : s.timeouts.filter (fun t => decide (¬ t = mkToken s.nextTokenId)) =
        s.timeouts :=
      List.filter_eq_self.mpr (fun a ha => by simpa using htime a ha)
    rw [h3]
    simp

/-- C4 witness: on a fresh cart over the record (`current_stock` 10,
`reserved_stock` 0), adding 4 units of product `p` succeeds and releasing the
returned token restores the original state with only the token counter
advanced. -/
theorem claim_c4_witness :
    (addItem freshState "p" 1200 10 4 0).1 = true ∧
    releaseReservation (addItem freshState "p" 1200 10 4 0).2
        (mkToken freshState.nextTokenId) =
      { freshState with nextTokenId := freshState.nextTokenId + 1 } :=
  claim_c4_reserve_release_inverse freshState "p" 1200 10 4 0 ⟨10, 0, 0⟩
    (by decide) (by decide) (by decide) (by decide) (by decide) (by decide)

/-! ### C5 / C9 — updateQuantity -/

/-- Shared characterisation of `updateQuantity`'s success path: with a
positive target quantity within the snapshot-based bound, the old reservation
is released (removing every line holding its token), a new reservation for
the target quantity is written, and the quantity update is mapped over the
remaining lines. -/
theorem updateQuantity_success_core (s : CartState) (productId : String)
    (quantity : Int) (item : CartItem) (rid : String) (rec : InventoryRecord)
    (hfind : s.items.find? (fun it => decide (it.productId = productId)) = some item)
    (hrid : item.reservationId = some rid)
    (htokfind : s.items.find? (fun it => decide (it.reservationId = some rid)) = some item)
    (hrec : s.inventory productId = some rec)
    (hqpos : 0 < quantity)
    (hqle : ¬ quantity > item.availableSnapshot + item.quantity) :
    updateQuantity s productId quantity =
      (true,
        { items := (s.items.filter
              (fun it => decide (¬ it.reservationId = some rid))).map
            (fun it => if it.productId = productId then
              { it with
                quantity := quantity,
                reservationId := some (mkToken s.nextTokenId) }
            else it),
          inventory := setInv
            (setInv s.inventory productId
              { rec with reserved_stock := max 0 (rec.reserved_stock - item.quantity) })
            productId
            { rec with
              reserved_stock := max 0 (rec.reserved_stock - item.quantity) + quantity },
          timeouts := s.timeouts.filter (fun t => decide (¬ t = rid)),
          nextTokenId := s.nextTokenId + 1,
          orders := s.orders }) := by
  have hpid : item.productId = productId := by
    have h := List.find?_some hfind
    simpa using h
  unfold updateQuantity
  rw [if_neg (show ¬ quantity ≤ 0 by omega), hfind]
  dsimp only
  rw [if_neg hqle, hrid]
  dsimp only
  unfold releaseReservation
  rw [htokfind]
  dsimp only
  rw [hpid, hrec]
  dsimp only
  unfold reserveInventory
  dsimp only
  rw [setInv_same]

/-- C5: for a cart line with held quantity `q1` and token `rid`, a target
quantity `q2 ≤ 0` removes the line (returning true); a target
`0 < q2 ≤ available_stock + q1` (the line's snapshot availability plus its
own held units) succeeds and changes the record's `reserved_stock` by exactly
`q2 - q1`; and a target beyond that bound returns false and leaves the state
untouched. -/
theorem claim_c5_updateQuantity (s : CartState) (productId : String)
    (quantity : Int) (item : CartItem) (rid : String) (rec : InventoryRecord)
    (hfind : s.items.find? (fun it => decide (it.productId = productId)) = some item)
    (hrid : item.reservationId = some rid)
    (htokfind : s.items.find? (fun it => decide (it.reservationId = some rid)) = some item)
    (hrec : s.inventory productId = some rec)
    (hheld : item.quantity ≤ rec.reserved_stock) :
    (quantity ≤ 0 →
      (updateQuantity s productId quantity).1 = true ∧
      ∀ it ∈ (updateQuantity s productId quantity).2.items,
        ¬ it.productId = productId) ∧
    (0 < quantity → quantity ≤ item.availableSnapshot + item.quantity →
      (updateQuantity s productId quantity).1 = true ∧
      (updateQuantity s productId quantity).2.inventory productId =
        some { rec with
          reserved_stock := rec.reserved_stock - item.quantity + quantity }) ∧
    (0 < quantity → quantity > item.availableSnapshot + item.quantity →
      updateQuantity s productId quantity = (false, s)) := by
  refine ⟨?_, ?_, ?_⟩
  · intro hle
    unfold updateQuantity
    rw [if_pos hle]
    refine ⟨rfl, ?_⟩
    intro it hit
    dsimp only [removeItem] at hit
    have := (List.mem_filter.mp hit).2
    simpa using this
  · intro hpos hle
    have hcore := updateQuantity_success_core s productId quantity item rid rec
      hfind hrid htokfind hrec hpos (by omega)
    rw [hcore]
    refine ⟨rfl, ?_⟩
    dsimp only
    rw [setInv_same]
    have hmax : max 0 (rec.reserved_stock - item.quantity) =
        rec.reserved_stock - item.quantity := by omega
    rw [hmax]
  · intro hpos hgt
    unfold updateQuantity
    rw [if_neg (show ¬ quantity ≤ 0 by omega), hfind]
    dsimp only
    rw [if_pos hgt]

/-- C5 witness: on the one-line cart holding 4 units of `p` (snapshot 6
available, record `current_stock` 10 / `reserved_stock` 4), updating the
quantity to 7 succeeds and the record's `reserved_stock` becomes
`4 - 4 + 7 = 7`. -/
theorem claim_c5_witness :
    (updateQuantity heldLineState "p" 7).1 = true ∧
    (updateQuantity heldLineState "p" 7).2.inventory "p" =
      some { current_stock := 10, reserved_stock := 7, total_sold := 0 } := by
  have h := (claim_c5_updateQuantity heldLineState "p" 7
    ⟨"p", 1200, 6, 4, some "r1", 0⟩ "r1" ⟨10, 4, 0⟩
    (by decide) (by decide) (by decide) (by decide) (by decide)).2.1
    (by decide) (by decide)
  exact h

/-- C9: a successful positive-quantity `updateQuantity` on a line holding a
reservation leaves the cart with no line for the product at all: the release
of the old reservation removes the line before the new quantity is mapped
over the remaining items, yet the call returns true and the new
reservation's quantity has been added to the record's `reserved_stock`. -/
theorem claim_c9_update_removes_line (s : CartState) (productId : String)
    (quantity : Int) (item : CartItem) (rid : String) (rec : InventoryRecord)
    (hfind : s.items.find? (fun it => decide (it.productId = productId)) = some item)
    (hrid : item.reservationId = some rid)
    (htokfind : s.items.find? (fun it => decide (it.reservationId = some rid)) = some item)
    (hrec : s.inventory productId = some rec)
    (huniq : ∀ it ∈ s.items, it.productId = productId → it = item)
    (hqpos : 0 < quantity)
    (hqle : quantity ≤ item.availableSnapshot + item.quantity) :
    (updateQuantity s productId quantity).1 = true ∧
    (∀ it ∈ (updateQuantity s productId quantity).2.items,
      ¬ it.productId = productId) ∧
    (updateQuantity s productId quantity).2.inventory productId =
      some { rec with
        reserved_stock := max 0 (rec.reserved_stock - item.quantity) + quantity } := by
  have hcore := updateQuantity_success_core s productId quantity item rid rec
    hfind hrid htokfind hrec hqpos (by omega)
  rw [hcore]
  refine ⟨rfl, ?_, ?_⟩
  · intro it hit
    dsimp only at hit
    rcases List.mem_map.mp hit with ⟨x, hx, hfx⟩
    have hxs : x ∈ s.items := (List.mem_filter.mp hx).1
    have hxtok : ¬ x.reservationId = some rid := by
      have := (List.mem_filter.mp hx).2
      simpa using this
    have hxp : ¬ x.productId = productId := by
      intro hp
      exact hxtok (huniq x hxs hp ▸ hrid)
    rw [if_neg hxp] at hfx
    intro hcontra
    exact hxp (hfx ▸ hcontra)
  · dsimp only
    rw [setInv_same]

/-- C9 witness: updating the held line of `p` from quantity 4 to 5 returns
true, leaves the cart with no line for `p`, and the record's
`reserved_stock` becomes `max 0 (4 - 4) + 5 = 5`. -/
theorem claim_c9_witness :
    (updateQuantity heldLineState "p" 5).1 = true ∧
    (∀ it ∈ (updateQuantity heldLineState "p" 5).2.items,
      ¬ it.productId = "p") ∧
    (updateQuantity heldLineState "p" 5).2.inventory "p" =
      some { current_stock := 10, reserved_stock := 5, total_sold := 0 } := by
  have h := claim_c9_update_removes_line heldLineState "p" 5
    ⟨"p", 1200, 6, 4, some "r1", 0⟩ "r1" ⟨10, 4, 0⟩
    (by decide) (by decide) (by decide) (by decide) (by decide) (by decide) (by decide)
  exact h

/-! ### C7 — reservation expiry on refresh -/

/-- Release only ever filters the cart lines. -/
theorem release_items_subset (s : CartState) (rid : String) :
    ∀ x ∈ (releaseReservation s rid).items, x ∈ s.items := by
  intro x hx
  unfold releaseReservation at hx
  cases hfind : s.items.find? (fun it => decide (it.reservationId = some rid)) with
  | none => rw [hfind] at hx; exact hx
  | some item =>
      rw [hfind] at hx
      dsimp only at hx
      exact (List.mem_filter.mp hx).1

/-- A refresh step only ever filters the cart lines. -/
theorem refreshStep_items_subset (now : Int) (s : CartState) (e : CartItem) :
    ∀ x ∈ (refreshStep now s e).items, x ∈ s.items := by
  intro x hx
  unfold refreshStep at hx
  cases he : e.reservationId with
  | none => rw [he] at hx; exact hx
  | some rid =>
      rw [he] at hx
      dsimp only at hx
      by_cases ht : now - e.addedAt > RESERVATION_TIMEOUT
      · rw [if_pos ht] at hx
        exact release_items_subset s rid x hx
      · rw [if_neg ht] at hx
        exact hx

/-- The refresh loop only ever filters the cart lines. -/
theorem refresh_fold_items_subset (now : Int) :
    ∀ (todo : List CartItem) (acc : CartState),
      ∀ x ∈ (todo.foldl (refreshStep now) acc).items, x ∈ acc.items := by
  intro todo
  induction todo with
  | nil => intro acc x hx; simpa using hx
  | cons e rest ih =>
      intro acc x hx
      rw [List.foldl_cons] at hx
      exact refreshStep_items_subset now acc e x (ih (refreshStep now acc e) x hx)

/-- During the refresh loop, the inventory record of a product owned by no
expired processed line is never written:  every release performed by the loop
targets the record of the (token-unique) expired line being processed. -/
theorem refresh_fold_inventory_const (now : Int) (S : List CartItem)
    (hTok : tokensInjective S) (p0 : String) :
    ∀ (todo : List CartItem) (acc : CartState),
      (∀ e ∈ todo, e ∈ S) →
      (∀ x ∈ acc.items, x ∈ S) →
      (∀ e ∈ todo, isExpired now e = true → ¬ e.productId = p0) →
      (todo.foldl (refreshStep now) acc).inventory p0 = acc.inventory p0 := by
  intro todo
  induction todo with
  | nil => intro acc _ _ _; rfl
  | cons e rest ih =>
      intro acc htodo hacc hexp
      rw [List.foldl_cons]
      have hstep_inv : (refreshStep now acc e).inventory p0 = acc.inventory p0 := by
        unfold refreshStep
        cases he : e.reservationId with
        | none => rfl
        | some rid =>
            dsimp only
            by_cases ht : now - e.addedAt > RESERVATION_TIMEOUT
            · rw [if_pos ht]
              unfold releaseReservation
              cases hfind : acc.items.find?
                  (fun it => decide (it.reservationId = some rid)) with
              | none => rfl
              | some itf =>
                  dsimp only
                  have hmem := List.mem_of_find?_eq_some hfind
                  have hitf_tok : itf.reservationId = some rid := by
                    simpa using List.find?_some hfind
                  have hitf_e : itf = e :=
                    hTok itf (hacc itf hmem) e (htodo e (List.mem_cons_self e rest))
                      (by rw [hitf_tok]; rfl) (by rw [hitf_tok, he])
                  have hexp_e : isExpired now e = true := by
                    unfold isExpired
                    rw [he]
                    simpa using ht
                  have hne : ¬ e.productId = p0 :=
                    hexp e (List.mem_cons_self e rest) hexp_e
                  cases hinv : acc.inventory itf.productId with
                  | none => rfl
                  | some rec =>
                      dsimp only
                      rw [setInv_other]
                      rw [hitf_e]
                      intro h
                      exact hne h.symm
            · rw [if_neg ht]
      rw [ih (refreshStep now acc e)
        (fun x hx => htodo x (List.mem_cons_of_mem e hx))
        (fun x hx => hacc x (refreshStep_items_subset now acc e x hx))
        (fun x hx hx2 => hexp x (List.mem_cons_of_mem e hx) hx2)]
      exact hstep_inv

/-- A line equal to no expired processed line survives the refresh loop:
every release performed by the loop removes only lines carrying the released
token, and tokens identify lines uniquely. -/
theorem refresh_fold_mem (now : Int) (S : List CartItem)
    (hTok : tokensInjective S) (it0 : CartItem) (h0S : it0 ∈ S) :
    ∀ (todo : List CartItem) (acc : CartState),
      (∀ e ∈ todo, e ∈ S) →
      (∀ x ∈ acc.items, x ∈ S) →
      (∀ e ∈ todo, isExpired now e = true → ¬ e = it0) →
      it0 ∈ acc.items →
      it0 ∈ (todo.foldl (refreshStep now) acc).items := by
  intro todo
  induction todo with
  | nil => intro acc _ _ _ h0; simpa using h0
  | cons e rest ih =>
      intro acc htodo hacc hne h0
      rw [List.foldl_cons]
      have hstep_mem : it0 ∈ (refreshStep now acc e).items := by
        unfold refreshStep
        cases he : e.reservationId with
        | none => exact h0
        | some rid =>
            dsimp only
            by_cases ht : now - e.addedAt > RESERVATION_TIMEOUT
            · rw [if_pos ht]
              unfold releaseReservation
              cases hfind : acc.items.find?
                  (fun it => decide (it.reservationId = some rid)) with
              | none => exact h0
              | some itf =>
                  dsimp only
                  refine List.mem_filter.mpr ⟨h0, ?_⟩
                  have hexp_e : isExpired now e = true := by
                    unfold isExpired
                    rw [he]
                    simpa using ht
                  have hne_e : ¬ e = it0 :=
                    hne e (List.mem_cons_self e rest) hexp_e
                  simp only [decide_eq_true_eq]
                  intro h0tok
                  exact hne_e (hTok e (htodo e (List.mem_cons_self e rest)) it0 h0S
                    (by rw [he]; rfl) (by rw [he, h0tok]))
            · rw [if_neg ht]
              exact h0
      exact ih (refreshStep now acc e)
        (fun x hx => htodo x (List.mem_cons_of_mem e hx))
        (fun x hx => hacc x (refreshStep_items_subset now acc e x hx))
        (fun x hx hx2 => hne x (List.mem_cons_of_mem e hx) hx2)
        hstep_mem

/-- `find?` returns the unique member satisfying the predicate. -/
theorem find?_unique_mem {α : Type} {l : List α} {p : α → Bool} {a : α}
    (ha : a ∈ l) (hpa : p a = true) (huniq : ∀ x ∈ l, p x = true → x = a) :
    l.find? p = some a := by
  induction l with
  | nil => cases ha
  | cons x xs ih =>
      by_cases hx : p x = true
      · have hxa : x = a := huniq x (List.mem_cons_self x xs) hx
        subst hxa
        exact List.find?_cons_of_pos xs hx
      · have hane : ¬ a = x := fun h => hx (h ▸ hpa)
        have ha' : a ∈ xs := by
          rcases List.mem_cons.mp ha with h | h
          · exact absurd h hane
          · exact h
        rw [List.find?_cons_of_neg xs (by simpa using hx)]
        exact ih ha' (fun y hy hpy => huniq y (List.mem_cons_of_mem x hy) hpy)

/-- Distinct product ids identify cart lines uniquely. -/
theorem pairwise_productId_inj {S : List CartItem}
    (h : S.Pairwise (fun a b => ¬ a.productId = b.productId)) :
    ∀ a ∈ S, ∀ b ∈ S, a.productId = b.productId → a = b := by
  induction S with
  | nil => intro a ha; cases ha
  | cons x xs ih =>
      rw [List.pairwise_cons] at h
      intro a ha b hb hab
      rcases List.mem_cons.mp ha with rfl | ha' <;> rcases List.mem_cons.mp hb with rfl | hb'
      · rfl
      · exact absurd hab (h.1 b hb')
      · exact absurd hab.symm (h.1 a ha')
      · exact ih h.2 a ha' b hb' hab

/-- C7: on a cart with one line per product and pairwise distinct tokens, a
line whose reservation is older than the 15-minute TTL at the time of the
next `refreshReservations` call is released — it is removed from the cart and
its record's `reserved_stock` is decremented by the held quantity (floored at
0), restoring availability — while a line not yet expired is left untouched:
it stays in the cart and its record is not written. -/
theorem claim_c7_refresh_ttl (s : CartState) (now : Int) (it0 : CartItem)
    (hTok : tokensInjective s.items)
    (hProd : s.items.Pairwise (fun a b => ¬ a.productId = b.productId))
    (h0 : it0 ∈ s.items) :
    (isExpired now it0 = false →
      it0 ∈ (refreshReservations s now).items ∧
      (refreshReservations s now).inventory it0.productId =
        s.inventory it0.productId) ∧
    (∀ rid rec, it0.reservationId = some rid →
      now - it0.addedAt > RESERVATION_TIMEOUT →
      s.inventory it0.productId = some rec →
      it0 ∉ (refreshReservations s now).items ∧
      (refreshReservations s now).inventory it0.productId =
        some { rec with
          reserved_stock := max 0 (rec.reserved_stock - it0.quantity) }) := by
  have hprodInj := pairwise_productId_inj hProd
  constructor
  · intro hnotexp
    unfold refreshReservations
    constructor
    · exact refresh_fold_mem now s.items hTok it0 h0 s.items s
        (fun e he => he) (fun x hx => hx)
        (fun e _ hexp heq => by rw [heq, hnotexp] at hexp; cases hexp) h0
    · exact refresh_fold_inventory_const now s.items hTok it0.productId s.items s
        (fun e he => he) (fun x hx => hx)
        (fun e he hexp hpe => by
          have heq := hprodInj e he it0 h0 hpe
          rw [heq, hnotexp] at hexp
          cases hexp)
  · intro rid rec hrid htexp hinvrec
    obtain ⟨pre, post, hsplit⟩ := List.append_of_mem h0
    have hpre_ne : ∀ e ∈ pre, ¬ e = it0 := by
      intro e he heq
      have hp := hProd
      rw [hsplit, List.pairwise_append] at hp
      exact hp.2.2 e he it0 (List.mem_cons_self it0 post) (by rw [heq])
    have hpost_ne : ∀ e ∈ post, ¬ e = it0 := by
      intro e he heq
      have hp := hProd
      rw [hsplit, List.pairwise_append, List.pairwise_cons] at hp
      exact hp.2.1.1 e he (by rw [heq])
    have hpre_sub : ∀ e ∈ pre, e ∈ s.items := by
      intro e he
      rw [hsplit]
      exact List.mem_append_left _ he
    have hpost_sub : ∀ e ∈ post, e ∈ s.items := by
      intro e he
      rw [hsplit]
      exact List.mem_append_right _ (List.mem_cons_of_mem it0 he)
    unfold refreshReservations
    rw [hsplit, List.foldl_append, List.foldl_cons]
    have hacc1_sub : ∀ x ∈ (pre.foldl (refreshStep now) s).items, x ∈ s.items :=
      fun x hx => refresh_fold_items_subset now pre s x hx
    have hacc1_mem : it0 ∈ (pre.foldl (refreshStep now) s).items :=
      refresh_fold_mem now s.items hTok it0 h0 pre s hpre_sub (fun x hx => hx)
        (fun e he _ => hpre_ne e he) h0
    have hacc1_inv : (pre.foldl (refreshStep now) s).inventory it0.productId =
        s.inventory it0.productId :=
      refresh_fold_inventory_const now s.items hTok it0.productId pre s hpre_sub
        (fun x hx => hx)
        (fun e he _ hpe => hpre_ne e he (hprodInj e (hpre_sub e he) it0 h0 hpe))
    have hstep : refreshStep now (pre.foldl (refreshStep now) s) it0 =
        releaseReservation (pre.foldl (refreshStep now) s) rid := by
      unfold refreshStep
      rw [hrid]
      dsimp only
      rw [if_pos htexp]
    have hfind1 : (pre.foldl (refreshStep now) s).items.find?
        (fun it => decide (it.reservationId = some rid)) = some it0 := by
      refine find?_unique_mem hacc1_mem (by simp [hrid]) ?_
      intro x hx hpx
      have hx_tok : x.reservationId = some rid := by simpa using hpx
      exact hTok x (hacc1_sub x hx) it0 h0 (by rw [hx_tok]; rfl)
        (by rw [hx_tok, hrid])
    have hacc2_items : (releaseReservation (pre.foldl (refreshStep now) s) rid).items =
        (pre.foldl (refreshStep now) s).items.filter
          (fun it => decide (¬ it.reservationId = some rid)) := by
      unfold releaseReservation
      rw [hfind1]
    have hacc2_inv : (releaseReservation (pre.foldl (refreshStep now) s) rid).inventory
        it0.productId =
        some { rec with
          reserved_stock := max 0 (rec.reserved_stock - it0.quantity) } := by
      unfold releaseReservation
      rw [hfind1]
      dsimp only
      rw [hacc1_inv, hinvrec]
      dsimp only
      rw [setInv_same]
    have hacc2_sub : ∀ x ∈ (releaseReservation (pre.foldl (refreshStep now) s) rid).items,
        x ∈ s.items :=
      fun x hx => hacc1_sub x (release_items_subset (pre.foldl (refreshStep now) s) rid x hx)
    have hacc2_not : it0 ∉ (releaseReservation (pre.foldl (refreshStep now) s) rid).items := by
      rw [hacc2_items]
      intro hmem
      have h2 := (List.mem_filter.mp hmem).2
      simp [hrid] at h2
    rw [hstep]
    constructor
    · intro hmem3
      exact hacc2_not (refresh_fold_items_subset now post
        (releaseReservation (pre.foldl (refreshStep now) s) rid) it0 hmem3)
    · rw [refresh_fold_inventory_const now s.items hTok it0.productId post
        (releaseReservation (pre.foldl (refreshStep now) s) rid) hpost_sub hacc2_sub
        (fun e he _ hpe => hpost_ne e he (hprodInj e (hpost_sub e he) it0 h0 hpe))]
      exact hacc2_inv

/-- Two-line cart used by the refresh witness: the `p` line was reserved at
time 0, the `q` line at time 1000. -/
def refreshState : CartState :=
  ⟨[⟨"p", 1200, 6, 4, some "r1", 0⟩, ⟨"q", 800, 3, 2, some "r2", 1000⟩],
   fun p => if p = "p" then some ⟨10, 4, 0⟩
     else if p = "q" then some ⟨5, 2, 0⟩ else none,
   ["r1", "r2"], 3, []⟩

/-- C7 witness: at `now = TTL + 1` the `p` line (age `TTL + 1`) is released —
removed from the cart, its record's `reserved_stock` dropping from 4 to 0 —
while the `q` line (age `TTL - 999`) stays and its record is untouched. -/
theorem claim_c7_witness :
    ((⟨"p", 1200, 6, 4, some "r1", 0⟩ : CartItem) ∉
      (refreshReservations refreshState (RESERVATION_TIMEOUT + 1)).items ∧
     (refreshReservations refreshState (RESERVATION_TIMEOUT + 1)).inventory "p" =
       some { current_stock := 10, reserved_stock := 0, total_sold := 0 }) ∧
    ((⟨"q", 800, 3, 2, some "r2", 1000⟩ : CartItem) ∈
      (refreshReservations refreshState (RESERVATION_TIMEOUT + 1)).items ∧
     (refreshReservations refreshState (RESERVATION_TIMEOUT + 1)).inventory "q" =
       refreshState.inventory "q") := by
  constructor
  · have h := (claim_c7_refresh_ttl refreshState (RESERVATION_TIMEOUT + 1)
      ⟨"p", 1200, 6, 4, some "r1", 0⟩ (by unfold tokensInjective; decide) (by decide)
      (by decide)).2 "r1" ⟨10, 4, 0⟩ (by decide) (by decide) (by decide)
    refine ⟨h.1, ?_⟩
    rw [h.2]
    decide
  · exact (claim_c7_refresh_ttl refreshState (RESERVATION_TIMEOUT + 1)
      ⟨"q", 800, 3, 2, some "r2", 1000⟩ (by unfold tokensInjective; decide) (by decide)
      (by decide)).1 (by decide)

/-! ### C8 — nonnegative stock counters -/

/-- Point updates with a nonnegative `reserved_stock` preserve store-wide
nonnegativity of `reserved_stock`. -/
theorem setInv_nonneg {inv : String → Option InventoryRecord} {productId : String}
    {rec : InventoryRecord} (hinv : invNonneg inv) (hrec : 0 ≤ rec.reserved_stock) :
    invNonneg (setInv inv productId rec) := by
  intro p r hp
  unfold setInv at hp
  by_cases h : p = productId
  · rw [if_pos h] at hp
    injection hp with h2
    rw [← h2]
    exact hrec
  · rw [if_neg h] at hp
    exact hinv p r hp

/-- A reserve of a nonnegative quantity never writes a negative
`reserved_stock`. -/
theorem reserveInventory_nonneg {s : CartState} {productId : String} {quantity : Int}
    (hinv : invNonneg s.inventory) (hq : 0 ≤ quantity) :
    invNonneg (reserveInventory s productId quantity).2.inventory := by
  unfold reserveInventory
  cases hrec : s.inventory productId with
  | none => exact hinv
  | some rec =>
      dsimp only
      refine setInv_nonneg hinv ?_
      have := hinv productId rec hrec
      show 0 ≤ rec.reserved_stock + quantity
      omega

/-- A release never writes a negative `reserved_stock`: the write is floored
at 0. -/
theorem releaseReservation_nonneg {s : CartState} {reservationId : String}
    (hinv : invNonneg s.inventory) :
    invNonneg (releaseReservation s reservationId).inventory := by
  unfold releaseReservation
  cases hfind : s.items.find? (fun it => decide (it.reservationId = some reservationId)) with
  | none => exact hinv
  | some item =>
      dsimp only
      cases hrec : s.inventory item.productId with
      | none => exact hinv
      | some rec =>
          dsimp only
          exact setInv_nonneg hinv (le_max_left 0 _)

/-- A checkout commit step never writes a negative `reserved_stock`. -/
theorem commitLine_nonneg {s : CartState} {it : CartItem}
    (hinv : invNonneg s.inventory) : invNonneg (commitLine s it).inventory := by
  unfold commitLine
  cases hrec : s.inventory it.productId with
  | none => exact hinv
  | some rec =>
      dsimp only
      exact setInv_nonneg hinv (le_max_left 0 _)

/-- The release loop of `clearCart` preserves nonnegative `reserved_stock`. -/
theorem foldl_release_nonneg (l : List CartItem) :
    ∀ (acc : CartState), invNonneg acc.inventory →
      invNonneg ((l.foldl (fun acc it =>
        match it.reservationId with
        | some rid => releaseReservation acc rid
        | none => acc) acc).inventory) := by
  induction l with
  | nil => intro acc h; simpa using h
  | cons e rest ih =>
      intro acc h
      rw [List.foldl_cons]
      apply ih
      cases he : e.reservationId with
      | none => simpa [he] using h
      | some rid =>
          simp only [he]
          exact releaseReservation_nonneg h

/-- `clearCart` preserves nonnegative `reserved_stock`. -/
theorem clearCart_nonneg {s : CartState} (hinv : invNonneg s.inventory) :
    invNonneg (clearCart s).inventory := by
  unfold clearCart
  dsimp only
  exact foldl_release_nonneg s.items s hinv

/-- The checkout commit loop preserves nonnegative `reserved_stock`. -/
theorem foldl_commit_nonneg (l : List CartItem) :
    ∀ (acc : CartState), invNonneg acc.inventory →
      invNonneg ((l.foldl commitLine acc).inventory) := by
  induction l with
  | nil => intro acc h; simpa using h
  | cons e rest ih =>
      intro acc h
      rw [List.foldl_cons]
      exact ih (commitLine acc e) (commitLine_nonneg h)

/-- The whole checkout never writes a negative `reserved_stock`. -/
theorem handleCheckout_nonneg {s : CartState} (hinv : invNonneg s.inventory) :
    invNonneg (handleCheckout s).2.inventory := by
  unfold handleCheckout
  by_cases he : s.items.isEmpty
  · rw [if_pos he]
    exact hinv
  · rw [if_neg he]
    dsimp only
    apply clearCart_nonneg
    exact foldl_commit_nonneg s.items _ hinv

/-- C8 (amended): `reserved_stock` writes are floored at 0 on release and on
the checkout commit, and reserve adds a nonnegative quantity, so on a store
whose records all carry nonnegative `reserved_stock`, no reserve, release, or
checkout leaves a negative `reserved_stock` anywhere — but (per the
counterexample) checkout's `current_stock` decrement carries no such guard
and can write a negative `current_stock`. -/
theorem claim_c8_amended (s : CartState) (productId reservationId : String)
    (quantity : Int) (hinv : invNonneg s.inventory) :
    (0 ≤ quantity → invNonneg (reserveInventory s productId quantity).2.inventory) ∧
    invNonneg (releaseReservation s reservationId).inventory ∧
    invNonneg (handleCheckout s).2.inventory :=
  ⟨fun hq => reserveInventory_nonneg hinv hq,
   releaseReservation_nonneg hinv,
   handleCheckout_nonneg hinv⟩

/-- Cart state whose store maps every product to the same nonnegative record,
used by the C8 witness. -/
def constInvState : CartState :=
  ⟨[⟨"A", 1000, 10, 1, some "t1", 0⟩], fun _ => some ⟨10, 2, 0⟩, ["t1"], 5, []⟩

/-- C8 witness: on the constant nonnegative store, reserve of one unit,
release of the held token, and checkout all leave every `reserved_stock`
nonnegative. -/
theorem claim_c8_witness :
    invNonneg (reserveInventory constInvState "A" 1).2.inventory ∧
    invNonneg (releaseReservation constInvState "t1").inventory ∧
    invNonneg (handleCheckout constInvState).2.inventory := by
  have hinv : invNonneg constInvState.inventory := by
    intro p r h
    injection h with h2
    rw [← h2]
    decide
  have h := claim_c8_amended constInvState "A" "t1" 1 hinv
  exact ⟨h.1 (by decide), h.2.1, h.2.2⟩

end ArtisanCoffee
